import Mathlib

/-!
Verification of the national-parks hiking-conditions pipeline (main.py).

The program loads a CSV table, validates that the required columns are
present, derives an `AverageScore` column as the row mean of the twelve
month columns, prints a ranked report sorted by `AverageScore` descending,
and builds plotly figures (a per-month heat map and an interactive
dashboard with one trace per month plus an Average trace).

This file gives a shallow embedding of that logic:

* cells are symbolic (`Cell`): a string, an exact rational standing for a
  float, or `na` standing for a missing value / NaN;
* a `Table` is the parsed CSV: the header (column names) and the rows,
  each row a function from column name to cell, mirroring a pandas row;
* `load_data` mirrors `main.py`'s `load_data`: the schema check
  (`required_cols - set(df.columns)`, raising on a non-empty difference)
  followed by `df["AverageScore"] = df[MONTH_COLUMNS].mean(axis=1)`,
  where `mean(axis=1)` skips missing values (pandas default
  `skipna=True`) — `nanmean` below;
* `sort_values_desc` mirrors `df.sort_values("AverageScore",
  ascending=False, ignore_index=True)`.  pandas computes a single-column
  sort with `nargsort`: for `ascending=False` it first REVERSES the
  non-NaN values together with their position array, runs an ascending
  argsort over the reversed data, reverses the resulting indexer, and
  appends the NaN positions (`na_position="last"`).  The two reversals
  cancel on tied keys when the underlying argsort is stable, so tied rows
  keep their original input order (this double reversal is exactly how
  pandas makes descending sorts stable, GH #6399).  The underlying
  argsort is modelled as a stable sort (`List.mergeSort`), matching
  numpy's small-array insertion-sort regime and pandas' documented
  stable kinds;
* `print_average_scores` mirrors the report loop, including the exact
  f-string `f"{rank:>2}. {park} ({state}) – {avg:.2f}"`;
* `normalize_month_name` mirrors the month-name lookup, with Python's
  `str.strip` / `str.lower` modelled on ASCII data (`pyStrip`, `pyLower`);
* the dashboard trace visibility flags and dropdown buttons of
  `make_interactive_dashboard` are modelled by `dashboard_traces` and
  `dashboard_buttons`.

Floats are modelled by exact rationals, so "within floating-point
tolerance" statements become exact equalities.
-/

namespace VacationPlanner

/-- A cell of the input table: a string, a numeric value (floats modelled
by exact rationals), or a missing value (NaN). -/
inductive Cell where
  | str (s : String)
  | num (q : ℚ)
  | na
deriving DecidableEq

/-- The parsed CSV: header (column names, in order) and data rows.  A row
assigns a cell to every column name, mirroring access `row[col]`. -/
structure Table where
  columns : List String
  rows : List (String → Cell)

/-- The twelve month columns, in calendar order (MONTH_COLUMNS in main.py). -/
def MONTH_COLUMNS : List String :=
  ["Jan", "Feb", "Mar", "Apr", "May", "Jun",
   "Jul", "Aug", "Sep", "Oct", "Nov", "Dec"]

/-- Required columns of load_data:
`{"Park", "State", "Latitude", "Longitude"} | set(MONTH_COLUMNS)`. -/
def REQUIRED_COLS : List String :=
  ["Park", "State", "Latitude", "Longitude"] ++ MONTH_COLUMNS

/-- The set difference `required_cols - set(df.columns)`, kept in the
canonical order of `REQUIRED_COLS` (Python iterates a set in unspecified
order; only the set of names matters). -/
def missingCols (t : Table) : List String :=
  REQUIRED_COLS.filter (fun c => !t.columns.contains c)

/-- The validation failure of load_data (spec name: SchemaError; in the
code a `ValueError` whose message lists the missing columns).  It carries
the set of missing column names. -/
structure SchemaError where
  missing : List String
deriving DecidableEq

/-- One loaded record: the raw cells of the interesting columns plus the
derived AverageScore. -/
structure Record where
  park : Cell
  state : Cell
  latitude : Cell
  longitude : Cell
  months : List Cell
  averageScore : Option ℚ
deriving DecidableEq

/-- Numeric content of a cell (`NaN`/non-numeric ↦ none). -/
def cellNum : Cell → Option ℚ
  | .num q => some q
  | _ => none

/-- Row mean as pandas `mean(axis=1)` computes it with the default
`skipna=True`: the mean of the present values, NaN (none) if all are
missing. -/
def nanmean (xs : List (Option ℚ)) : Option ℚ :=
  let vals := xs.filterMap id
  if vals.length = 0 then none else some (vals.sum / (vals.length : ℚ))

/-- Build one record from a row:
`df["AverageScore"] = df[MONTH_COLUMNS].mean(axis=1)`, all other fields
taken verbatim from the row. -/
def mkRecord (row : String → Cell) : Record :=
  { park := row "Park"
    state := row "State"
    latitude := row "Latitude"
    longitude := row "Longitude"
    months := MONTH_COLUMNS.map row
    averageScore := nanmean ((MONTH_COLUMNS.map row).map cellNum) }

/-- load_data: schema validation, then the derived-column computation.
`if missing: raise ValueError(...)` becomes the error branch; otherwise
every row is kept, in order, with AverageScore added. -/
def load_data (t : Table) : Except SchemaError (List Record) :=
  if missingCols t ≠ [] then
    Except.error ⟨missingCols t⟩
  else
    Except.ok (t.rows.map mkRecord)

/-- Sort key of a record: its AverageScore (`getD 0` is never reached on
the non-NaN part that gets sorted). -/
def avgKey (r : Record) : ℚ := r.averageScore.getD 0

/-- Ascending comparison on (original index, record) pairs, by
AverageScore only — the comparison pandas' argsort performs on the key
column. -/
def rankLE (a b : ℕ × Record) : Bool := decide (avgKey a.2 ≤ avgKey b.2)

/-- The sort behind `df.sort_values("AverageScore", ascending=False,
ignore_index=True)`, following pandas `nargsort` for `ascending=False`:
the non-NaN rows (tagged with their original position by `enum`,
mirroring the index array) are reversed, stable-sorted ascending by key,
and the result is reversed again; the NaN rows are appended last
(`na_position="last"`).  The double reversal makes the descending sort
stable: tied keys keep their original input order. -/
def sort_values_desc (recs : List Record) : List Record :=
  let idx := recs.enum
  let nonNa := idx.filter (fun p => p.2.averageScore.isSome)
  let na := idx.filter (fun p => !p.2.averageScore.isSome)
  (((nonNa.reverse.mergeSort rankLE).reverse) ++ na).map Prod.snd

/-- Left-pad a string with copies of a character up to a given width
(Python's `:>2` alignment and `02`-style zero padding). -/
def padLeftWith (c : Char) (w : ℕ) (s : String) : String :=
  String.mk (List.replicate (w - s.length) c) ++ s

/-- Python `f"{rank:>2}"`: the decimal digits right-aligned in width 2. -/
def fmtRank (n : ℕ) : String := padLeftWith ' ' 2 (toString n)

/-- Round an exact rational to the nearest integer, ties to even —
the rounding Python's float formatting applies at the last kept digit. -/
def roundHalfEven (q : ℚ) : ℤ :=
  let f := ⌊q⌋
  if q - f < 1/2 then f
  else if q - f > 1/2 then f + 1
  else if f % 2 = 0 then f else f + 1

/-- Python `f"{avg:.2f}"` on an exact value: two digits after the decimal
point, rounded half-to-even. -/
def fmt2 (q : ℚ) : String :=
  let n := roundHalfEven (q * 100)
  let a := n.natAbs
  (if n < 0 then "-" else "") ++
    toString (a / 100) ++ "." ++ padLeftWith '0' 2 (toString (a % 100))

/-- Format an AverageScore; a missing value prints as `nan`, as Python
formats a float NaN. -/
def fmtAvg : Option ℚ → String
  | none => "nan"
  | some q => fmt2 q

/-- Text of a cell as it appears interpolated into an f-string. -/
def cellStr : Cell → String
  | .str s => s
  | .num q => toString q
  | .na => "nan"

/-- One line of the ranked report:
`f"{rank:>2}. {park} ({state}) – {avg:.2f}"`. -/
def reportLine (rank : ℕ) (r : Record) : String :=
  fmtRank rank ++ ". " ++ cellStr r.park ++ " (" ++ cellStr r.state ++
    ") – " ++ fmtAvg r.averageScore

/-- The lines printed by print_average_scores (excluding the heading):
the records sorted descending, each with its 1-based rank
(`ignore_index=True` resets the index, so `idx + 1` is the position). -/
def print_average_scores (recs : List Record) : List String :=
  (sort_values_desc recs).enum.map (fun p => reportLine (p.1 + 1) p.2)

/-- Whitespace as Python's `str.strip` treats it on ASCII data. -/
def isPyWs (c : Char) : Bool :=
  c == ' ' || c == '\t' || c == '\n' || c == '\r' || c == '\x0b' || c == '\x0c'

/-- Strip leading and trailing whitespace from a character list. -/
def pyStripList (l : List Char) : List Char :=
  ((l.dropWhile isPyWs).reverse.dropWhile isPyWs).reverse

/-- Python `str.strip()` (ASCII fragment). -/
def pyStrip (s : String) : String := ⟨pyStripList s.data⟩

/-- Python `str.lower()` (ASCII fragment): `Char.toLower` maps the basic
latin letters `A`..`Z` down by 32, exactly as Python does on ASCII. -/
def pyLower (s : String) : String := ⟨s.data.map Char.toLower⟩

/-- The `mapping` dict of normalize_month_name, in source order. -/
def MONTH_MAPPING : List (String × String) :=
  [("january", "Jan"), ("jan", "Jan"),
   ("february", "Feb"), ("feb", "Feb"),
   ("march", "Mar"), ("mar", "Mar"),
   ("april", "Apr"), ("apr", "Apr"),
   ("may", "May"),
   ("june", "Jun"), ("jun", "Jun"),
   ("july", "Jul"), ("jul", "Jul"),
   ("august", "Aug"), ("aug", "Aug"),
   ("september", "Sep"), ("sep", "Sep"),
   ("october", "Oct"), ("oct", "Oct"),
   ("november", "Nov"), ("nov", "Nov"),
   ("december", "Dec"), ("dec", "Dec")]

/-- normalize_month_name: strip, lower, look the result up in the
mapping; an unknown name raises `ValueError` (the error branch). -/
def normalize_month_name (month : String) : Except String String :=
  let m := pyLower (pyStrip month)
  match MONTH_MAPPING.lookup m with
  | some v => Except.ok v
  | none => Except.error ("Unrecognized month '" ++ m ++ "'")

/-- The dropdown labels of the interactive dashboard:
`MONTH_COLUMNS + ["Average"]`. -/
def dropdown_labels : List String := MONTH_COLUMNS ++ ["Average"]

/-- The aspects of a `go.Scattergeo` trace the visibility claims are
about: its name and its `visible` flag. -/
structure TraceView where
  name : String
  visible : Bool
deriving DecidableEq

/-- The traces built by make_interactive_dashboard: one per dropdown
label, `visible=(idx == 0)`. -/
def dashboard_traces : List TraceView :=
  dropdown_labels.enum.map (fun p => { name := p.2, visible := p.1 == 0 })

/-- A dropdown button of the dashboard: its label and the `visible`
array its `update` method sets. -/
structure DropdownButton where
  label : String
  visibility : List Bool
deriving DecidableEq

/-- The buttons built by make_interactive_dashboard:
`visibility = [False] * len(dropdown_labels); visibility[idx] = True`. -/
def dashboard_buttons : List DropdownButton :=
  dropdown_labels.enum.map (fun p =>
    { label := p.2
      visibility := (List.replicate dropdown_labels.length false).set p.1 true })

/-! ### General lemmas -/

theorem toNat_char_ofNat {n : ℕ} (h : n < 55296) : (Char.ofNat n).toNat = n := by
  rw [Char.ofNat, dif_pos (Or.inl h)]
  simp [Char.ofNatAux, Char.toNat, UInt32.toNat]

theorem toLower_def (c : Char) :
    Char.toLower c = if c.toNat ≥ 65 ∧ c.toNat ≤ 90 then Char.ofNat (c.toNat + 32) else c := rfl

theorem isPyWs_lt {c : Char} (h : isPyWs c = true) : c.toNat < 33 := by
  simp [isPyWs, or_assoc] at h
  rcases h with h|h|h|h|h|h <;> subst h <;> decide

theorem isPyWs_ge_33 {c : Char} (h : 33 ≤ c.toNat) : isPyWs c = false := by
  cases hb : isPyWs c with
  | false => rfl
  | true => exact absurd (isPyWs_lt hb) (by omega)

theorem isPyWs_toLower (c : Char) : isPyWs (Char.toLower c) = isPyWs c := by
  rw [toLower_def]
  split
  · rename_i h
    have h1 : (Char.ofNat (c.toNat + 32)).toNat = c.toNat + 32 :=
      toNat_char_ofNat (by omega)
    rw [isPyWs_ge_33 (by omega), isPyWs_ge_33 (by omega : (33:ℕ) ≤ c.toNat)]
  · rfl

theorem toLower_toLower (c : Char) : Char.toLower (Char.toLower c) = Char.toLower c := by
  by_cases h : c.toNat ≥ 65 ∧ c.toNat ≤ 90
  · have h0 : Char.toLower c = Char.ofNat (c.toNat + 32) := by
      rw [toLower_def]; exact if_pos h
    have h1 : (Char.ofNat (c.toNat + 32)).toNat = c.toNat + 32 :=
      toNat_char_ofNat (by omega)
    rw [h0, toLower_def, if_neg (by rw [h1]; omega)]
  · have h0 : Char.toLower c = c := by rw [toLower_def]; exact if_neg h
    rw [h0, h0]

theorem mem_of_mem_enum {α : Type} {l : List α} {p : ℕ × α} (h : p ∈ l.enum) : p.2 ∈ l :=
  List.getElem?_mem (List.mem_enum_iff_getElem?.mp h)

theorem pair_get_sublist {α : Type} {l : List α} {i j : ℕ} (hij : i < j) (hj : j < l.length) :
    List.Sublist [l.get ⟨i, lt_trans hij hj⟩, l.get ⟨j, hj⟩] l := by
  have h1 : List.Sublist [l.get ⟨i, lt_trans hij hj⟩] (l.take j) := by
    rw [List.singleton_sublist]
    have hi' : i < (l.take j).length := by
      simp [List.length_take]
      omega
    have hg : (l.take j).get ⟨i, hi'⟩ = l.get ⟨i, lt_trans hij hj⟩ := by
      simp [List.getElem_take']
    rw [← hg]
    exact List.get_mem _ _ _
  have h2 : List.Sublist [l.get ⟨j, hj⟩] (l.drop j) := by
    rw [List.singleton_sublist]
    have hd : 0 < (l.drop j).length := by simp [List.length_drop]; omega
    have hg : (l.drop j).get ⟨0, hd⟩ = l.get ⟨j, hj⟩ := by
      simp [List.getElem_drop']
    rw [← hg]
    exact List.get_mem _ _ _
  have h3 := h1.append h2
  simpa [List.take_append_drop] using h3

theorem pair_enum_sublist {α : Type} {l : List α} {i j : ℕ} (hij : i < j) (hj : j < l.length) :
    List.Sublist [(i, l.get ⟨i, lt_trans hij hj⟩), (j, l.get ⟨j, hj⟩)] l.enum := by
  have hj' : j < l.enum.length := by simpa using hj
  have h := pair_get_sublist (l := l.enum) hij hj'
  have e1 : l.enum.get ⟨i, lt_trans hij hj'⟩ = (i, l.get ⟨i, lt_trans hij hj⟩) := by
    simp [List.getElem_enum]
  have e2 : l.enum.get ⟨j, hj'⟩ = (j, l.get ⟨j, hj⟩) := by
    simp [List.getElem_enum]
  rwa [e1, e2] at h

theorem rankLE_trans (a b c : ℕ × Record) (h1 : rankLE a b) (h2 : rankLE b c) : rankLE a c := by
  simp only [rankLE, decide_eq_true_eq] at *
  exact le_trans h1 h2

theorem rankLE_total (a b : ℕ × Record) : rankLE a b || rankLE b a := by
  simp only [rankLE, Bool.or_eq_true, decide_eq_true_eq]
  exact le_total _ _

/-! ### Claim C1: schema validation -/

/-- C1: load_data fails with a SchemaError exactly when a required column
(Park, State, Latitude, Longitude or one of the twelve months) is absent,
the error names exactly the missing columns, and with all required
columns present it succeeds. -/
theorem load_data_schema (t : Table) :
    (missingCols t ≠ [] →
      load_data t = Except.error ⟨missingCols t⟩ ∧
      ∀ c, c ∈ missingCols t ↔ (c ∈ REQUIRED_COLS ∧ c ∉ t.columns)) ∧
    (missingCols t = [] → load_data t = Except.ok (t.rows.map mkRecord)) ∧
    (missingCols t = [] ↔ ∀ c ∈ REQUIRED_COLS, c ∈ t.columns) := by
  refine ⟨fun h => ⟨by simp [load_data, h], fun c => ?_⟩,
         fun h => by simp [load_data, h], ?_⟩
  · simp [missingCols, List.mem_filter]
  · simp [missingCols, List.filter_eq_nil_iff]

/-- Concrete table whose header lacks exactly the Longitude column. -/
def tblNoLon : Table := ⟨["Park", "State", "Latitude"] ++ MONTH_COLUMNS, []⟩

/-- Concrete single-row table with every required column present. -/
def rowFull : String → Cell := fun c =>
  if c = "Park" then .str "Yellowstone" else if c = "State" then .str "WY"
  else if c = "Latitude" then .num 44 else if c = "Longitude" then .num (-110)
  else .num 5

def tblFull : Table := ⟨REQUIRED_COLS, [rowFull]⟩

theorem load_data_schema_witness :
    load_data tblNoLon = Except.error ⟨["Longitude"]⟩ ∧
    "Longitude" ∈ missingCols tblNoLon ∧
    load_data tblFull = Except.ok (tblFull.rows.map mkRecord) := by
  have h1 := (load_data_schema tblNoLon).1 (by decide)
  have h2 := (load_data_schema tblFull).2.1 (by decide)
  have hmc : missingCols tblNoLon = ["Longitude"] := by decide
  exact ⟨by rw [h1.1, hmc], (h1.2 "Longitude").mpr ⟨by decide, by decide⟩, h2⟩

/-! ### Claim C4: validation happens before the numeric work -/

/-- C4: on a table with missing columns load_data raises the schema
error, and the result does not depend on the row data at all — any two
tables with the same (deficient) header fail identically, so no derived
AverageScore is ever computed on the error path. -/
theorem schema_check_first (t₁ t₂ : Table) (hcols : t₁.columns = t₂.columns)
    (hmiss : missingCols t₁ ≠ []) :
    load_data t₁ = Except.error ⟨missingCols t₁⟩ ∧ load_data t₁ = load_data t₂ := by
  have hm : missingCols t₁ = missingCols t₂ := by simp only [missingCols, hcols]
  have h1 : load_data t₁ = Except.error ⟨missingCols t₁⟩ := by simp [load_data, hmiss]
  have h2 : load_data t₂ = Except.error ⟨missingCols t₂⟩ := by
    simp [load_data, hm ▸ hmiss]
  exact ⟨h1, by rw [h1, h2, hm]⟩

/-- Header-only table lacking Longitude, used for C4. -/
def tblC4a : Table := ⟨["Park", "State", "Latitude"] ++ MONTH_COLUMNS, []⟩

/-- Same deficient header as tblC4a but with a data row. -/
def tblC4b : Table := ⟨["Park", "State", "Latitude"] ++ MONTH_COLUMNS, [fun _ => .num 3]⟩

theorem schema_check_first_witness :
    load_data tblC4a = Except.error ⟨missingCols tblC4a⟩ ∧
    load_data tblC4a = load_data tblC4b :=
  schema_check_first tblC4a tblC4b rfl (by decide)

/-! ### Claim C7: determinism of loading -/

/-- C7: load_data is a pure function of the parsed file contents — equal
inputs give equal record sequences and equal AverageScore values (there is
no hidden state or nondeterminism in the embedded loader). -/
theorem load_data_deterministic (t₁ t₂ : Table) (h : t₁ = t₂) :
    load_data t₁ = load_data t₂ := by rw [h]

theorem load_data_deterministic_witness :
    load_data tblFull = load_data tblFull :=
  load_data_deterministic tblFull tblFull rfl

/-! ### Claim C8: header-only input -/

/-- C8: a table with all required columns and zero data rows loads
successfully to the empty record sequence, and the ranked report on it is
empty. -/
theorem empty_input_report (t : Table)
    (hcols : ∀ c ∈ REQUIRED_COLS, c ∈ t.columns) (hrows : t.rows = []) :
    load_data t = Except.ok [] ∧ print_average_scores [] = [] := by
  have hm : missingCols t = [] := (load_data_schema t).2.2.mpr hcols
  refine ⟨?_, ?_⟩
  · have h := (load_data_schema t).2.1 hm
    rw [h, hrows]
    rfl
  · simp [print_average_scores, sort_values_desc]

/-- Header-only table with the full schema. -/
def tblHeaderOnly : Table := ⟨REQUIRED_COLS, []⟩

theorem empty_input_report_witness :
    load_data tblHeaderOnly = Except.ok [] ∧ print_average_scores [] = [] :=
  empty_input_report tblHeaderOnly (by decide) rfl

/-! ### Claim C2: AverageScore is the mean of the twelve month values -/

/-- C2: in every record produced by load_data whose twelve monthly cells
are all numeric (present), the derived AverageScore equals the arithmetic
mean of those twelve values — exactly, since floats are modelled by
rationals. -/
theorem averageScore_mean (t : Table) (recs : List Record)
    (hload : load_data t = Except.ok recs) (r : Record) (hr : r ∈ recs)
    (qs : List ℚ) (hq : r.months.map cellNum = qs.map some) (hlen : qs.length = 12) :
    r.averageScore = some (qs.sum / 12) := by
  rw [load_data] at hload
  split at hload
  · exact absurd hload (by simp)
  · have hrecs : recs = t.rows.map mkRecord := by cases hload; rfl
    subst hrecs
    obtain ⟨row, hrow, rfl⟩ := List.mem_map.mp hr
    show nanmean ((MONTH_COLUMNS.map row).map cellNum) = some (qs.sum / 12)
    have hm : (mkRecord row).months = MONTH_COLUMNS.map row := rfl
    rw [← hm, hq, nanmean]
    have hfm : (qs.map some).filterMap id = qs := by
      rw [List.filterMap_map]
      simp [List.filterMap_some]
    simp [hfm, hlen]

/-- Single-row table for the C2 witness: every month scores 5. -/
def rowW2 : String → Cell := fun c =>
  if c = "Park" then .str "Yosemite" else if c = "State" then .str "CA"
  else if c = "Latitude" then .num 37 else if c = "Longitude" then .num (-119)
  else .num 5

def tblW2 : Table := ⟨REQUIRED_COLS, [rowW2]⟩

def qsW2 : List ℚ := List.replicate 12 5

theorem averageScore_mean_witness :
    load_data tblW2 = Except.ok [mkRecord rowW2] ∧
    (mkRecord rowW2).averageScore = some (qsW2.sum / 12) :=
  ⟨rfl, averageScore_mean tblW2 [mkRecord rowW2] rfl (mkRecord rowW2)
    (by simp) qsW2 rfl rfl⟩

/-! ### Claim C6: the loader only adds AverageScore -/

/-- C6: on success load_data keeps the rows in input order and copies
Park, State, Latitude, Longitude and the twelve month cells verbatim from
the input; the only new data is the derived AverageScore field. -/
theorem loader_frame (t : Table) (recs : List Record)
    (hload : load_data t = Except.ok recs) :
    recs.length = t.rows.length ∧
    ∀ i : ℕ, (recs[i]?).map
        (fun r => (r.park, r.state, r.latitude, r.longitude, r.months)) =
      (t.rows[i]?).map (fun row =>
        (row "Park", row "State", row "Latitude", row "Longitude",
          MONTH_COLUMNS.map row)) := by
  rw [load_data] at hload
  split at hload
  · exact absurd hload (by simp)
  · have hrecs : recs = t.rows.map mkRecord := by cases hload; rfl
    subst hrecs
    refine ⟨by simp, fun i => ?_⟩
    rw [List.getElem?_map]
    cases t.rows[i]? with
    | none => rfl
    | some row => rfl

/-- Single-row table for the C6 witness. -/
def rowW6 : String → Cell := fun c =>
  if c = "Park" then .str "Zion" else if c = "State" then .str "UT"
  else if c = "Latitude" then .num 37 else if c = "Longitude" then .num (-113)
  else .num 7

def tblW6 : Table := ⟨REQUIRED_COLS, [rowW6]⟩

theorem loader_frame_witness :
    [mkRecord rowW6].length = tblW6.rows.length ∧
    ([mkRecord rowW6][0]?).map
        (fun r => (r.park, r.state, r.latitude, r.longitude, r.months)) =
      (tblW6.rows[0]?).map (fun row =>
        (row "Park", row "State", row "Latitude", row "Longitude",
          MONTH_COLUMNS.map row)) :=
  ⟨(loader_frame tblW6 [mkRecord rowW6] rfl).1,
   (loader_frame tblW6 [mkRecord rowW6] rfl).2 0⟩

/-! ### Claim C5: the exact report line format -/

/-- C5: the ranked report has one line per record; line i (0-based) shows
rank i+1 right-aligned in width 2, then ". ", the park name, the state in
parentheses, an en dash, and the AverageScore to two decimals — the ranks
are therefore 1-indexed and consecutive. -/
theorem report_format (recs : List Record) :
    (print_average_scores recs).length = recs.length ∧
    ∀ i : ℕ, (print_average_scores recs)[i]? =
      ((sort_values_desc recs)[i]?).map (fun r =>
        padLeftWith ' ' 2 (toString (i + 1)) ++ ". " ++ cellStr r.park ++ " (" ++
          cellStr r.state ++ ") – " ++ fmtAvg r.averageScore) := by
  have hlen : (sort_values_desc recs).length = recs.length := by
    simp only [sort_values_desc]
    rw [List.length_map, List.length_append, List.length_reverse,
        List.length_mergeSort, List.length_reverse]
    have hp := (List.filter_append_perm
      (fun p => p.2.averageScore.isSome) recs.enum).length_eq
    simp only [List.length_append] at hp
    rw [hp]
    simp
  constructor
  · simp [print_average_scores, hlen]
  · intro i
    simp only [print_average_scores]
    rw [List.getElem?_map, List.enum_eq_enumFrom, List.getElem?_enumFrom]
    cases h : (sort_values_desc recs)[i]? with
    | none => rfl
    | some r => simp [reportLine, fmtRank, Nat.zero_add]

/-! ### Claim C3: the Ranker's sort order

pandas' descending `sort_values` is stable: for `ascending=False`,
`nargsort` reverses the rows before the stable ascending argsort and
reverses the indexer afterwards, so the two reversals cancel on tied
keys and records with equal AverageScore keep their original input
order. -/

/-- C3: on records whose AverageScore is present, the Ranker's output is
a permutation of the input sorted by AverageScore descending, and two
records with equal AverageScore keep their original relative input order
— the descending sort is stable, thanks to the double reversal around
the stable ascending argsort. -/
theorem ranker_sort (recs : List Record) (h : ∀ r ∈ recs, r.averageScore.isSome) :
    (sort_values_desc recs).Perm recs ∧
    (sort_values_desc recs).Pairwise (fun a b => avgKey b ≤ avgKey a) ∧
    ∀ i j : ℕ, ∀ hj : j < recs.length, ∀ hij : i < j,
      avgKey (recs.get ⟨i, lt_trans hij hj⟩) = avgKey (recs.get ⟨j, hj⟩) →
      List.Sublist [recs.get ⟨i, lt_trans hij hj⟩, recs.get ⟨j, hj⟩]
        (sort_values_desc recs) := by
  have hnn : recs.enum.filter (fun p => p.2.averageScore.isSome) = recs.enum :=
    List.filter_eq_self.mpr (fun p hp => h p.2 (mem_of_mem_enum hp))
  have hna : recs.enum.filter (fun p => !p.2.averageScore.isSome) = [] :=
    List.filter_eq_nil_iff.mpr (fun p hp => by simp [h p.2 (mem_of_mem_enum hp)])
  refine ⟨?_, ?_, ?_⟩
  · simp only [sort_values_desc, hnn, hna, List.append_nil]
    have hp1 : (recs.enum.reverse.mergeSort rankLE).Perm recs.enum.reverse :=
      List.mergeSort_perm _ _
    have hp2 : ((recs.enum.reverse.mergeSort rankLE).reverse).Perm recs.enum :=
      ((List.reverse_perm _).trans hp1).trans (List.reverse_perm _)
    have hp3 := hp2.map Prod.snd
    simpa [List.enum_map_snd] using hp3
  · simp only [sort_values_desc, hnn, hna, List.append_nil]
    have hs : (recs.enum.reverse.mergeSort rankLE).Pairwise (fun a b => rankLE a b) :=
      List.sorted_mergeSort rankLE_trans rankLE_total recs.enum.reverse
    have hrev : ((recs.enum.reverse.mergeSort rankLE).reverse).Pairwise
        (fun a b => rankLE b a) := List.pairwise_reverse.mpr hs
    rw [List.pairwise_map]
    refine hrev.imp ?_
    intro a b hab
    simpa [rankLE, decide_eq_true_eq] using hab
  · intro i j hj hij heq
    simp only [sort_values_desc, hnn, hna, List.append_nil]
    have hsub0 := pair_enum_sublist hij hj
    have hsub : List.Sublist
        [(j, recs.get ⟨j, hj⟩), (i, recs.get ⟨i, lt_trans hij hj⟩)]
        recs.enum.reverse := by
      have h5 := hsub0.reverse
      simpa using h5
    have hab : rankLE (j, recs.get ⟨j, hj⟩) (i, recs.get ⟨i, lt_trans hij hj⟩) := by
      simp only [rankLE, decide_eq_true_eq]
      exact le_of_eq (by simpa using heq.symm)
    have h2 := List.pair_sublist_mergeSort rankLE_trans rankLE_total hab hsub
    have h3 := h2.reverse
    have h4 := h3.map Prod.snd
    simpa using h4

/-- Records for the C3 witness: a tied pair (both score 5) around a
higher score, exercising both the descending order and the tie
behaviour. -/
def rW3a : Record := ⟨.str "P1", .str "S1", .num 1, .num 1, [], some 5⟩

def rW3b : Record := ⟨.str "P2", .str "S2", .num 2, .num 2, [], some 9⟩

def rW3c : Record := ⟨.str "P3", .str "S3", .num 3, .num 3, [], some 5⟩

def recsW3 : List Record := [rW3a, rW3b, rW3c]

theorem ranker_sort_witness :
    (sort_values_desc recsW3).Perm recsW3 ∧
    (sort_values_desc recsW3).Pairwise (fun a b => avgKey b ≤ avgKey a) ∧
    List.Sublist [rW3a, rW3c] (sort_values_desc recsW3) ∧
    sort_values_desc [rW3a, rW3c] = [rW3a, rW3c] := by
  have h := ranker_sort recsW3 (by decide)
  refine ⟨h.1, h.2.1, h.2.2 0 2 (by decide) (by decide) rfl, ?_⟩
  have hs : List.mergeSort [(1, rW3c), (0, rW3a)] rankLE = [(1, rW3c), (0, rW3a)] :=
    List.mergeSort_of_sorted (by
      simp only [List.pairwise_cons, List.mem_singleton, List.not_mem_nil,
        false_implies, implies_true, and_true, List.Pairwise.nil]
      intro p hp
      subst hp
      simp only [rankLE, decide_eq_true_eq]
      exact le_of_eq rfl)
  have henum : ([rW3a, rW3c]).enum = [(0, rW3a), (1, rW3c)] := rfl
  have hf1 : [(0, rW3a), (1, rW3c)].filter (fun p => p.2.averageScore.isSome) =
      [(0, rW3a), (1, rW3c)] := rfl
  have hf2 : [(0, rW3a), (1, rW3c)].filter (fun p => !p.2.averageScore.isSome) =
      [] := rfl
  have hrev : [(0, rW3a), (1, rW3c)].reverse = [(1, rW3c), (0, rW3a)] := rfl
  simp only [sort_values_desc, henum, hf1, hf2, hrev, hs, List.append_nil]
  rfl

/-! ### Claim C9: normalize_month_name -/

/-- The twelve full English month names, lowercase (the claim-side
characterization of the accepted inputs). -/
def MONTH_FULL_NAMES : List String :=
  ["january", "february", "march", "april", "may", "june",
   "july", "august", "september", "october", "november", "december"]

/-- The twelve three-letter month abbreviations, lowercase. -/
def MONTH_ABBREVS : List String :=
  ["jan", "feb", "mar", "apr", "may", "jun",
   "jul", "aug", "sep", "oct", "nov", "dec"]

theorem pyStripList_map_toLower (l : List Char) :
    pyStripList (l.map Char.toLower) = (pyStripList l).map Char.toLower := by
  have hcomp : isPyWs ∘ Char.toLower = isPyWs := funext isPyWs_toLower
  simp only [pyStripList]
  rw [List.dropWhile_map, hcomp, ← List.map_reverse, List.dropWhile_map, hcomp,
    ← List.map_reverse]

theorem pyStrip_pyLower (s : String) :
    pyLower (pyStrip (pyLower s)) = pyLower (pyStrip s) := by
  show (⟨(pyStripList (s.data.map Char.toLower)).map Char.toLower⟩ : String) =
    ⟨(pyStripList s.data).map Char.toLower⟩
  rw [pyStripList_map_toLower, List.map_map,
    (funext toLower_toLower : Char.toLower ∘ Char.toLower = Char.toLower)]

theorem pyStripList_ws_pad (pre sd post : List Char)
    (hpre : ∀ c ∈ pre, isPyWs c = true) (hpost : ∀ c ∈ post, isPyWs c = true) :
    pyStripList (pre ++ (sd ++ post)) = pyStripList sd := by
  simp only [pyStripList]
  rw [List.dropWhile_append_of_pos hpre, List.dropWhile_append]
  by_cases he : (sd.dropWhile isPyWs).isEmpty
  · rw [if_pos he]
    have h1 : post.dropWhile isPyWs = [] := by
      rw [List.dropWhile_eq_nil_iff]
      intro c hc
      simp [hpost c hc]
    have h2 : sd.dropWhile isPyWs = [] := by
      rwa [List.isEmpty_iff] at he
    rw [h1, h2]
  · rw [if_neg he, List.reverse_append,
      List.dropWhile_append_of_pos (fun c hc => hpost c (List.mem_reverse.mp hc))]

/-- C9: normalize_month_name accepts exactly the strings that, after
stripping surrounding whitespace and lowercasing, are a full English
month name or a three-letter abbreviation; on success the result is one
of the twelve canonical abbreviations, and the function is insensitive to
letter case and to surrounding whitespace; everything else takes the
`ValueError` branch. -/
theorem normalize_month_spec (s : String) :
    (∀ m, normalize_month_name s = Except.ok m → m ∈ MONTH_COLUMNS) ∧
    ((∃ m, normalize_month_name s = Except.ok m) ↔
      (pyLower (pyStrip s) ∈ MONTH_FULL_NAMES ∨ pyLower (pyStrip s) ∈ MONTH_ABBREVS)) ∧
    normalize_month_name (pyLower s) = normalize_month_name s ∧
    (∀ pre post : String, (∀ c ∈ pre.data, isPyWs c = true) →
      (∀ c ∈ post.data, isPyWs c = true) →
      normalize_month_name (pre ++ s ++ post) = normalize_month_name s) := by
  refine ⟨?_, ?_, ?_, ?_⟩
  · intro m hm
    simp only [normalize_month_name] at hm
    cases hl : MONTH_MAPPING.lookup (pyLower (pyStrip s)) with
    | none => rw [hl] at hm; cases hm
    | some v =>
      rw [hl] at hm
      cases hm
      obtain ⟨l₁, l₂, heq2, -⟩ := List.lookup_eq_some_iff.mp hl
      have hvmem : m ∈ MONTH_MAPPING.map Prod.snd := by
        rw [heq2]
        simp
      exact (by decide : ∀ x ∈ MONTH_MAPPING.map Prod.snd, x ∈ MONTH_COLUMNS) m hvmem
  · have hiff : (∃ m, normalize_month_name s = Except.ok m) ↔
        (MONTH_MAPPING.lookup (pyLower (pyStrip s))).isSome := by
      simp only [normalize_month_name]
      cases hl : MONTH_MAPPING.lookup (pyLower (pyStrip s)) with
      | none => simp
      | some v => simp
    rw [hiff, List.lookup_isSome_iff]
    constructor
    · rintro ⟨p, hp, hk⟩
      have hke : pyLower (pyStrip s) = p.1 := beq_iff_eq.mp hk
      rw [hke]
      exact (by decide : ∀ x ∈ MONTH_MAPPING,
        x.1 ∈ MONTH_FULL_NAMES ∨ x.1 ∈ MONTH_ABBREVS) p hp
    · intro hk
      have hmem : pyLower (pyStrip s) ∈ MONTH_MAPPING.map Prod.fst := by
        rcases hk with hk | hk
        · exact (by decide : ∀ x ∈ MONTH_FULL_NAMES,
            x ∈ MONTH_MAPPING.map Prod.fst) _ hk
        · exact (by decide : ∀ x ∈ MONTH_ABBREVS,
            x ∈ MONTH_MAPPING.map Prod.fst) _ hk
      obtain ⟨p, hp, he⟩ := List.mem_map.mp hmem
      exact ⟨p, hp, by rw [← he]; exact beq_self_eq_true _⟩
  · simp only [normalize_month_name, pyStrip_pyLower]
  · intro pre post hpre hpost
    have hstr : pyStrip (pre ++ s ++ post) = pyStrip s := by
      show (⟨pyStripList ((pre ++ s ++ post).data)⟩ : String) = ⟨pyStripList s.data⟩
      rw [String.data_append, String.data_append, List.append_assoc]
      exact congrArg String.mk (pyStripList_ws_pad pre.data s.data post.data hpre hpost)
    simp only [normalize_month_name, hstr]

theorem normalize_month_spec_witness :
    ("Feb" ∈ MONTH_COLUMNS) ∧
    normalize_month_name (pyLower "FebRuArY") = normalize_month_name "FebRuArY" ∧
    normalize_month_name ("  " ++ "march" ++ " ") = normalize_month_name "march" ∧
    (pyLower (pyStrip " September ") ∈ MONTH_FULL_NAMES ∨
      pyLower (pyStrip " September ") ∈ MONTH_ABBREVS) :=
  ⟨(normalize_month_spec "FebRuArY").1 "Feb" rfl,
   (normalize_month_spec "FebRuArY").2.2.1,
   (normalize_month_spec "march").2.2.2 "  " " " (by decide) (by decide),
   (normalize_month_spec " September ").2.1.mp ⟨"Sep", rfl⟩⟩

/-! ### Claim C10: one visible trace at a time in the dashboard -/

/-- C10: the interactive dashboard has thirteen traces (the twelve months
plus Average); the initial figure marks only the first trace (Jan)
visible, and each of the thirteen dropdown buttons sets a visibility
array of length thirteen with exactly one True entry, at the index of its
own label — so exactly one trace is visible at any time. -/
theorem dashboard_visibility :
    dashboard_traces.length = 13 ∧
    dashboard_traces[0]? = some ⟨"Jan", true⟩ ∧
    (∀ i : Fin dashboard_traces.length,
      ((dashboard_traces.get i).visible = true ↔ i.val = 0)) ∧
    dashboard_buttons.length = 13 ∧
    (∀ i : Fin dashboard_buttons.length,
      (dashboard_buttons.get i).visibility.length = 13 ∧
      (dashboard_buttons.get i).visibility.count true = 1 ∧
      (dashboard_buttons.get i).visibility[i.val]? = some true ∧
      dropdown_labels[i.val]? = some (dashboard_buttons.get i).label) := by
  decide

end VacationPlanner
